import Mathlib

/-!
Verification of the Augur fork-risk calculation job
(`scripts/calculate-fork-risk.ts` in the repository).

The job queries dispute-bond activity on the Augur protocol, reconstructs the
stake on each active dispute from three on-chain event streams, classifies the
fork risk, and writes a JSON snapshot.  This file gives a shallow embedding of
the job's pure computational core: the backoff retrier, the RPC fallback loop,
the dispute-state reconciler, the risk classifier, and the snapshot
constructors.  Network effects are represented by explicit inputs: the outcome
of the fork-state check is an `Option Bool` (`none` when the retried view call
failed), the per-market finalization view call is a `String → Option Bool`
oracle (`none` when the call threw), and the event scan is an
`Except String EventStreams` (`.error` when the scan failed as a whole).
Ether amounts are embedded as exact rationals, wei values as naturals.
-/

namespace ForkRisk

/-- Risk levels of the snapshot, from the `riskLevel` union type. -/
inductive RiskLevel where
  | low
  | moderate
  | high
  | critical
  | unknown
  deriving DecidableEq, Repr

/-- `FORK_THRESHOLD_REP = 275000` (2.5% of 11 million REP). -/
def FORK_THRESHOLD_REP : ℚ := 275000

/-- The static ordered list of public RPC endpoints (`PUBLIC_RPC_ENDPOINTS`). -/
def PUBLIC_RPC_ENDPOINTS : List String :=
  [ "https://eth.llamarpc.com"
  , "https://main-light.eth.linkpool.io"
  , "https://ethereum.publicnode.com"
  , "https://1rpc.io/eth" ]

/-- The shape of the `RISK_LEVELS` threshold table. -/
structure RiskLevelTable where
  LOW : ℚ
  MODERATE : ℚ
  HIGH : ℚ
  CRITICAL : ℚ

/-- The `RISK_LEVELS` constant: thresholds as percentages of the fork
threshold. -/
def RISK_LEVELS : RiskLevelTable :=
  { LOW := 10, MODERATE := 25, HIGH := 75, CRITICAL := 75 }

/-- `determineRiskLevel`: maps a percentage of the fork threshold to a
categorical risk level. -/
def determineRiskLevel (forkThresholdPercent : ℚ) : RiskLevel :=
  if forkThresholdPercent > RISK_LEVELS.CRITICAL then .critical
  else if forkThresholdPercent ≥ RISK_LEVELS.HIGH then .high
  else if forkThresholdPercent ≥ RISK_LEVELS.MODERATE then .moderate
  else .low

/-- `ethers.formatEther` followed by `Number(...)`: wei to REP, embedded as an
exact rational. -/
def formatEther (wei : ℕ) : ℚ := (wei : ℚ) / 1000000000000000000

/-- A decoded `DisputeCrowdsourcerCreated` event.  Only the positional
arguments the job reads are carried (`marketAddress`,
`disputeCrowdsourcerAddress`, `initialSizeWei`); ignored positions are
omitted. -/
structure CreatedEvent where
  marketAddress : String
  disputeCrowdsourcerAddress : String
  initialSizeWei : ℕ
  deriving DecidableEq, Repr

/-- A decoded `DisputeCrowdsourcerContribution` event.  Only the positional
arguments the job reads are carried: the event payload's `currentStakeWei`
is the running cumulative total staked on the crowdsourcer. -/
structure ContributionEvent where
  marketAddress : String
  disputeCrowdsourcerAddress : String
  currentStakeWei : ℕ
  disputeRound : ℕ
  timestamp : ℕ
  deriving DecidableEq, Repr

/-- A decoded `DisputeCrowdsourcerCompleted` event (only the positions the job
reads). -/
structure CompletedEvent where
  marketAddress : String
  disputeCrowdsourcerAddress : String
  deriving DecidableEq, Repr

/-- The three event streams gathered by the chunked scan, concatenated across
chunks (a chunk whose queries failed contributes nothing). -/
structure EventStreams where
  created : List CreatedEvent
  contributions : List ContributionEvent
  completed : List CompletedEvent
  deriving DecidableEq, Repr

/-- The per-crowdsourcer aggregate tracked in the `disputeStates` map. -/
structure DisputeState where
  marketId : String
  currentStake : ℚ
  disputeRound : ℕ
  isCompleted : Bool
  lastContributionTimestamp : ℕ
  deriving DecidableEq, Repr

/-- The `disputeStates` map keyed by dispute-crowdsourcer address, embedded as
an insertion-ordered association list (matching JS `Map` iteration order). -/
abbrev DisputeStates := List (String × DisputeState)

/-- `Map.get`: first binding for the key, if any. -/
def mapGet : DisputeStates → String → Option DisputeState
  | [], _ => none
  | p :: rest, k => if p.1 = k then some p.2 else mapGet rest k

/-- `Map.set`: update the existing binding in place, else append at the end. -/
def mapSet : DisputeStates → String → DisputeState → DisputeStates
  | [], k, v => [(k, v)]
  | p :: rest, k, v => if p.1 = k then (k, v) :: rest else p :: mapSet rest k v

/-- Pass 1 of the reconciler: a `Created` event initializes an aggregate with
the initial bond size, round 1, not completed. -/
def applyCreated (m : DisputeStates) (e : CreatedEvent) : DisputeStates :=
  mapSet m e.disputeCrowdsourcerAddress
    { marketId := e.marketAddress
      currentStake := formatEther e.initialSizeWei
      disputeRound := 1
      isCompleted := false
      lastContributionTimestamp := 0 }

/-- Pass 2 of the reconciler: a `Contribution` event overwrites the aggregate's
stake with the event's cumulative stake, sets the round, and advances the
last-contribution timestamp to the max seen; if no aggregate exists (the
`Created` event was missed), a fresh one is created from the contribution
event itself. -/
def applyContribution (m : DisputeStates) (e : ContributionEvent) : DisputeStates :=
  match mapGet m e.disputeCrowdsourcerAddress with
  | some st =>
      mapSet m e.disputeCrowdsourcerAddress
        { st with
          currentStake := formatEther e.currentStakeWei
          disputeRound := e.disputeRound
          lastContributionTimestamp := max st.lastContributionTimestamp e.timestamp }
  | none =>
      mapSet m e.disputeCrowdsourcerAddress
        { marketId := e.marketAddress
          currentStake := formatEther e.currentStakeWei
          disputeRound := e.disputeRound
          isCompleted := false
          lastContributionTimestamp := e.timestamp }

/-- Pass 3 of the reconciler: a `Completed` event marks the matching aggregate
(if present) as completed. -/
def applyCompleted (m : DisputeStates) (e : CompletedEvent) : DisputeStates :=
  match mapGet m e.disputeCrowdsourcerAddress with
  | some st => mapSet m e.disputeCrowdsourcerAddress { st with isCompleted := true }
  | none => m

/-- The three reconciliation passes of `getActiveDisputes`, in strict
event-kind order: all `Created`, then all `Contribution`, then all
`Completed`. -/
def buildDisputeStates (s : EventStreams) : DisputeStates :=
  s.completed.foldl applyCompleted
    (s.contributions.foldl applyContribution
      (s.created.foldl applyCreated []))

/-- The survivor filter of `getActiveDisputes`: drop completed aggregates, then
drop aggregates whose market the finalization view call reports finalized; a
failed view call (`none`) defaults to keeping the dispute. -/
def keepDispute (marketFinalized : String → Option Bool) (st : DisputeState) : Bool :=
  if st.isCompleted then false
  else
    match marketFinalized st.marketId with
    | some true => false
    | some false => true
    | none => true

/-- The surviving `(address, aggregate)` pairs, in map iteration order. -/
def activeStates (marketFinalized : String → Option Bool) (m : DisputeStates) :
    DisputeStates :=
  m.filter (fun p => keepDispute marketFinalized p.2)

/-- Conversion of a surviving aggregate to an output `DisputeDetails` record. -/
structure DisputeDetails where
  marketId : String
  title : String
  disputeBondSize : ℚ
  disputeRound : ℕ
  daysRemaining : ℕ
  deriving DecidableEq, Repr

/-- Build a `DisputeDetails` record from an aggregate, as in the push inside
`getActiveDisputes`. -/
def toDetail (st : DisputeState) : DisputeDetails :=
  { marketId := st.marketId
    title := "Market " ++ st.marketId.take 10 ++ "..."
    disputeBondSize := st.currentStake
    disputeRound := st.disputeRound
    daysRemaining := 7 }

/-- The sort comparator of `getActiveDisputes` (`(a, b) => b.disputeBondSize -
a.disputeBondSize`): non-increasing stake order. -/
def detailGE (a b : DisputeDetails) : Prop := b.disputeBondSize ≤ a.disputeBondSize

instance : DecidableRel detailGE := fun a b =>
  inferInstanceAs (Decidable (b.disputeBondSize ≤ a.disputeBondSize))

instance : IsTotal DisputeDetails detailGE :=
  ⟨fun a b => (le_total b.disputeBondSize a.disputeBondSize).imp id id⟩

instance : IsTrans DisputeDetails detailGE :=
  ⟨fun _ _ _ hab hbc => le_trans hbc hab⟩

/-- `getActiveDisputes`: reconcile the scanned event streams, filter to active
non-finalized disputes, sort descending by stake and keep the top 10.  A scan
that failed as a whole yields the empty list (the outer catch). -/
def getActiveDisputes (marketFinalized : String → Option Bool)
    (scan : Except String EventStreams) : List DisputeDetails :=
  match scan with
  | .error _ => []
  | .ok s =>
      let states := buildDisputeStates s
      let disputes := (activeStates marketFinalized states).map (fun p => toDetail p.2)
      (disputes.insertionSort detailGE).take 10

/-- `getLargestDisputeBond`: `Math.max` over the bond sizes, 0 for an empty
list. -/
def getLargestDisputeBond (disputes : List DisputeDetails) : ℚ :=
  match disputes.map (fun d => d.disputeBondSize) with
  | [] => 0
  | x :: xs => xs.foldl max x

/-- RPC diagnostics recorded in the snapshot. -/
structure RpcInfo where
  endpoint : Option String
  latency : Option ℕ
  fallbacksAttempted : ℕ
  deriving DecidableEq, Repr

/-- The snapshot's `metrics` object. -/
structure Metrics where
  largestDisputeBond : ℚ
  forkThresholdPercent : ℚ
  activeDisputes : ℕ
  disputeDetails : List DisputeDetails
  deriving DecidableEq, Repr

/-- The snapshot's `calculation` object. -/
structure Calculation where
  method : String
  forkThreshold : ℚ
  deriving DecidableEq, Repr

/-- The output snapshot (`ForkRiskData`).  The wall-clock `timestamp` and
`nextUpdate` fields are omitted from the embedding. -/
structure ForkRiskData where
  blockNumber : Option ℕ
  riskLevel : RiskLevel
  riskPercentage : ℚ
  metrics : Metrics
  rpcInfo : RpcInfo
  calculation : Calculation
  error : Option String
  deriving DecidableEq, Repr

/-- A working RPC connection (`RpcConnection`), minus the provider handle. -/
structure RpcConnection where
  endpoint : String
  latency : ℕ
  fallbacksAttempted : ℕ
  deriving DecidableEq, Repr

/-- `Math.round(x * 100) / 100`: rounding to two decimals. -/
def round2 (x : ℚ) : ℚ := ((⌊x * 100 + 1 / 2⌋ : ℤ) : ℚ) / 100

/-- `getForkingResult`: the fixed snapshot returned when the universe is
forking. -/
def getForkingResult (blockNumber : ℕ) (connection : RpcConnection) : ForkRiskData :=
  { blockNumber := some blockNumber
    riskLevel := .critical
    riskPercentage := 100
    metrics :=
      { largestDisputeBond := FORK_THRESHOLD_REP
        forkThresholdPercent := 100
        activeDisputes := 0
        disputeDetails :=
          [ { marketId := "FORKING"
              title := "Universe is currently forking"
              disputeBondSize := FORK_THRESHOLD_REP
              disputeRound := 99
              daysRemaining := 0 } ] }
    rpcInfo :=
      { endpoint := some connection.endpoint
        latency := some connection.latency
        fallbacksAttempted := connection.fallbacksAttempted }
    calculation := { method := "Fork Detected", forkThreshold := FORK_THRESHOLD_REP }
    error := none }

/-- `getErrorResult`: the error-variant snapshot. -/
def getErrorResult (errorMessage : String) : ForkRiskData :=
  { blockNumber := none
    riskLevel := .unknown
    riskPercentage := 0
    metrics :=
      { largestDisputeBond := 0
        forkThresholdPercent := 0
        activeDisputes := 0
        disputeDetails := [] }
    rpcInfo := { endpoint := none, latency := none, fallbacksAttempted := 0 }
    calculation := { method := "Error", forkThreshold := FORK_THRESHOLD_REP }
    error := some errorMessage }

/-- The body of the closure inside `calculateForkRisk` (the per-connection
computation).  `forkCheck` is the outcome of the retried `universe.isForking()`
call (`none` when it failed after all retries, in which case the catch leaves
`isForking = false` and the run continues); `marketFinalized` is the
per-market finalization oracle; `scan` is the outcome of the event scan. -/
def calculateRiskSnapshot (blockNumber : ℕ) (connection : RpcConnection)
    (forkCheck : Option Bool) (marketFinalized : String → Option Bool)
    (scan : Except String EventStreams) : ForkRiskData :=
  let isForking := forkCheck.getD false
  if isForking then getForkingResult blockNumber connection
  else
    let activeDisputes := getActiveDisputes marketFinalized scan
    let largestDisputeBond := getLargestDisputeBond activeDisputes
    let forkThresholdPercent := largestDisputeBond / FORK_THRESHOLD_REP * 100
    let riskLevel := determineRiskLevel forkThresholdPercent
    { blockNumber := some blockNumber
      riskLevel := riskLevel
      riskPercentage := min 100 (max 0 forkThresholdPercent)
      metrics :=
        { largestDisputeBond := largestDisputeBond
          forkThresholdPercent := round2 forkThresholdPercent
          activeDisputes := activeDisputes.length
          disputeDetails := activeDisputes.take 5 }
      rpcInfo :=
        { endpoint := some connection.endpoint
          latency := some connection.latency
          fallbacksAttempted := connection.fallbacksAttempted }
      calculation :=
        { method := "GitHub Actions + Public RPC", forkThreshold := FORK_THRESHOLD_REP }
      error := none }

/-- The observable behavior of one `retryContractCall` run: the final outcome,
how many times the operation was executed, the delays (ms) waited between
attempts, and the warning/error log lines emitted. -/
structure RetryResult (α : Type) where
  outcome : Except String α
  attemptsMade : ℕ
  delays : List ℕ
  logs : List String
  deriving Repr

/-- The `for` loop of `retryContractCall`.  `op attempt` is the outcome of the
`attempt`-th execution of the operation; `fuel` counts the remaining loop
iterations (the loop runs `attempt = 1 .. maxRetries`).  On a failure that is
not the last attempt, a delay of `2^(attempt-1) * 1000` ms is recorded and the
loop continues; on the last attempt the last error is rethrown. -/
def retryAux (op : ℕ → Except String α) (methodName : String) (maxRetries : ℕ) :
    ℕ → ℕ → RetryResult α
  | 0, attempt =>
      { outcome := .error ("Unexpected retry flow for " ++ methodName)
        attemptsMade := attempt - 1
        delays := []
        logs := [] }
  | fuel + 1, attempt =>
      match op attempt with
      | .ok v => { outcome := .ok v, attemptsMade := attempt, delays := [], logs := [] }
      | .error e =>
          if attempt = maxRetries then
            { outcome := .error e
              attemptsMade := attempt
              delays := []
              logs := [methodName ++ " failed after " ++ toString maxRetries
                        ++ " attempts: " ++ e] }
          else
            let delay := 2 ^ (attempt - 1) * 1000
            let r := retryAux op methodName maxRetries fuel (attempt + 1)
            { outcome := r.outcome
              attemptsMade := r.attemptsMade
              delays := delay :: r.delays
              logs := (methodName ++ " failed (attempt " ++ toString attempt ++ "/"
                        ++ toString maxRetries ++ "): " ++ e) :: r.logs }

/-- `retryContractCall`: bounded retry with exponential backoff, starting at
attempt 1. -/
def retryContractCall (op : ℕ → Except String α) (methodName : String)
    (maxRetries : ℕ) : RetryResult α :=
  retryAux op methodName maxRetries maxRetries 1

/-- The outcome of attempting the full per-endpoint pipeline (connect, load
contracts, run the computation) against one endpoint. -/
inductive EndpointOutcome where
  | failure (message : String)
  | success (result : ForkRiskData)

/-- The loop of `executeWithRpcFallback`: try each endpoint in order, tracking
the last error and the number of failed endpoints; on exhaustion throw the
last error (or the aggregate message if no endpoint was ever tried). -/
def fallbackAux (attempt : String → EndpointOutcome) :
    List String → Option String → ℕ → Except String ForkRiskData
  | [], lastError, n =>
      .error (match lastError with
        | some msg => msg
        | none => "All RPC endpoints failed (attempted " ++ toString n ++ ")")
  | rpc :: rest, _lastError, n =>
      match attempt rpc with
      | .success r => .ok r
      | .failure msg => fallbackAux attempt rest (some msg) (n + 1)

/-- `executeWithRpcFallback`: run the pipeline across the static endpoint
list. -/
def executeWithRpcFallback (attempt : String → EndpointOutcome) :
    Except String ForkRiskData :=
  fallbackAux attempt PUBLIC_RPC_ENDPOINTS none 0

/-- `main`: on success write the computed snapshot and exit 0; on a fatal
error write the error-variant snapshot and exit 1.  Returns the written
snapshot and the process exit code. -/
def mainRun (attempt : String → EndpointOutcome) : ForkRiskData × ℕ :=
  match executeWithRpcFallback attempt with
  | .ok results => (results, 0)
  | .error msg => (getErrorResult msg, 1)

/-! ### Helper lemmas about the association-list map -/

/-- The keys of the `disputeStates` map, in iteration order. -/
def keys (m : DisputeStates) : List String := m.map Prod.fst

theorem mapGet_mapSet_self (m : DisputeStates) (k : String) (v : DisputeState) :
    mapGet (mapSet m k v) k = some v := by
  induction m with
  | nil => simp [mapSet, mapGet]
  | cons p rest ih =>
    by_cases h : p.1 = k
    · simp [mapSet, h, mapGet]
    · simp [mapSet, h, mapGet, ih]

theorem mapGet_mapSet_ne (m : DisputeStates) (k : String) (v : DisputeState)
    (k' : String) (h : k' ≠ k) : mapGet (mapSet m k v) k' = mapGet m k' := by
  induction m with
  | nil => simp only [mapSet, mapGet, if_neg (fun hh : k = k' => h hh.symm)]
  | cons p rest ih =>
    by_cases hp : p.1 = k
    · have : k ≠ k' := fun hh => h hh.symm
      simp [mapSet, hp, mapGet, this]
    · simp only [mapSet, hp, if_false, mapGet]
      by_cases hq : p.1 = k'
      · simp [hq]
      · simp [hq, ih]

theorem mem_keys_mapSet (m : DisputeStates) (k : String) (v : DisputeState)
    (a : String) (ha : a ∈ keys (mapSet m k v)) : a ∈ keys m ∨ a = k := by
  induction m with
  | nil =>
    right
    simpa [mapSet, keys] using ha
  | cons p rest ih =>
    by_cases hp : p.1 = k
    · simp [mapSet, hp, keys] at ha ⊢
      tauto
    · simp [mapSet, hp, keys] at ha ⊢
      rcases ha with ha | ha
      · tauto
      · rcases ih (by simpa [keys] using ha) with h1 | h1
        · simp [keys] at h1
          tauto
        · tauto

theorem nodup_keys_mapSet (m : DisputeStates) (k : String) (v : DisputeState)
    (h : (keys m).Nodup) : (keys (mapSet m k v)).Nodup := by
  induction m with
  | nil => simp [mapSet, keys]
  | cons p rest ih =>
    simp only [keys, List.map_cons, List.nodup_cons] at h
    by_cases hp : p.1 = k
    · simp only [mapSet, hp, if_true, keys, List.map_cons, List.nodup_cons]
      exact ⟨hp ▸ h.1, h.2⟩
    · simp only [mapSet, hp, if_false, keys, List.map_cons, List.nodup_cons]
      refine ⟨fun hmem => ?_, ih h.2⟩
      rcases mem_keys_mapSet rest k v _ hmem with h1 | h1
      · exact h.1 h1
      · exact hp h1

theorem mapGet_eq_some_of_mem (m : DisputeStates) (h : (keys m).Nodup)
    (k : String) (v : DisputeState) (hm : (k, v) ∈ m) : mapGet m k = some v := by
  induction m with
  | nil => simp at hm
  | cons p rest ih =>
    simp only [keys, List.map_cons, List.nodup_cons] at h
    rcases List.mem_cons.mp hm with he | hm'
    · simp [← he, mapGet]
    · have hp : p.1 ≠ k := by
        intro hpk
        exact h.1 (hpk ▸ List.mem_map_of_mem Prod.fst hm')
      simp only [mapGet, hp, if_false]
      exact ih h.2 hm'

theorem nodup_keys_foldl {β : Type} (f : DisputeStates → β → DisputeStates)
    (hf : ∀ m b, (keys m).Nodup → (keys (f m b)).Nodup) :
    ∀ (l : List β) (m : DisputeStates), (keys m).Nodup → (keys (l.foldl f m)).Nodup
  | [], _, h => h
  | b :: l, m, h => nodup_keys_foldl f hf l (f m b) (hf m b h)

theorem nodup_keys_applyCreated (m : DisputeStates) (e : CreatedEvent)
    (h : (keys m).Nodup) : (keys (applyCreated m e)).Nodup :=
  nodup_keys_mapSet _ _ _ h

theorem nodup_keys_applyContribution (m : DisputeStates) (e : ContributionEvent)
    (h : (keys m).Nodup) : (keys (applyContribution m e)).Nodup := by
  unfold applyContribution
  cases mapGet m e.disputeCrowdsourcerAddress <;> exact nodup_keys_mapSet _ _ _ h

theorem nodup_keys_applyCompleted (m : DisputeStates) (e : CompletedEvent)
    (h : (keys m).Nodup) : (keys (applyCompleted m e)).Nodup := by
  unfold applyCompleted
  cases mapGet m e.disputeCrowdsourcerAddress
  · exact h
  · exact nodup_keys_mapSet _ _ _ h

theorem nodup_keys_buildDisputeStates (s : EventStreams) :
    (keys (buildDisputeStates s)).Nodup := by
  unfold buildDisputeStates
  exact nodup_keys_foldl _ nodup_keys_applyCompleted _ _
    (nodup_keys_foldl _ nodup_keys_applyContribution _ _
      (nodup_keys_foldl _ nodup_keys_applyCreated _ _ (by simp [keys])))

/-! ### The completed-dispute invariant -/

/-- After the completion pass, a key is either absent from the map or its
aggregate carries `isCompleted = true`. -/
def completedOrAbsent (m : DisputeStates) (k : String) : Prop :=
  mapGet m k = none ∨ ∃ st, mapGet m k = some st ∧ st.isCompleted = true

theorem applyCompleted_self (m : DisputeStates) (e : CompletedEvent) :
    completedOrAbsent (applyCompleted m e) e.disputeCrowdsourcerAddress := by
  unfold applyCompleted
  cases hg : mapGet m e.disputeCrowdsourcerAddress with
  | none => exact Or.inl hg
  | some st => exact Or.inr ⟨_, mapGet_mapSet_self _ _ _, rfl⟩

theorem applyCompleted_preserves (m : DisputeStates) (e : CompletedEvent)
    (k : String) (h : completedOrAbsent m k) :
    completedOrAbsent (applyCompleted m e) k := by
  unfold applyCompleted
  cases hg : mapGet m e.disputeCrowdsourcerAddress with
  | none => exact h
  | some st =>
    by_cases hk : k = e.disputeCrowdsourcerAddress
    · subst hk
      exact Or.inr ⟨_, mapGet_mapSet_self _ _ _, rfl⟩
    · rcases h with h | ⟨st', h', hc⟩
      · exact Or.inl ((mapGet_mapSet_ne _ _ _ _ hk).trans h)
      · exact Or.inr ⟨st', (mapGet_mapSet_ne _ _ _ _ hk).trans h', hc⟩

theorem foldl_applyCompleted_preserves (es : List CompletedEvent)
    (m : DisputeStates) (k : String) (h : completedOrAbsent m k) :
    completedOrAbsent (es.foldl applyCompleted m) k := by
  induction es generalizing m with
  | nil => exact h
  | cons e es ih => exact ih _ (applyCompleted_preserves _ _ _ h)

theorem foldl_applyCompleted_mem (es : List CompletedEvent) (m : DisputeStates)
    (k : String) (h : k ∈ es.map (fun e => e.disputeCrowdsourcerAddress)) :
    completedOrAbsent (es.foldl applyCompleted m) k := by
  induction es generalizing m with
  | nil => simp at h
  | cons e es ih =>
    simp only [List.map_cons, List.mem_cons] at h
    rcases h with h | h
    · subst h
      exact foldl_applyCompleted_preserves es _ _ (applyCompleted_self m e)
    · exact ih _ h

theorem keepDispute_not_completed (mf : String → Option Bool) (st : DisputeState)
    (h : keepDispute mf st = true) : st.isCompleted = false := by
  unfold keepDispute at h
  by_cases hc : st.isCompleted = true
  · simp [hc] at h
  · simpa using hc

/-! ### The retrier attempt bound -/

theorem retryAux_attemptsMade_le (op : ℕ → Except String α) (methodName : String)
    (maxRetries : ℕ) :
    ∀ (fuel attempt : ℕ),
      (retryAux op methodName maxRetries fuel attempt).attemptsMade ≤ attempt + fuel - 1
  | 0, attempt => by simp [retryAux]
  | fuel + 1, attempt => by
    unfold retryAux
    cases op attempt with
    | ok v =>
      show attempt ≤ attempt + (fuel + 1) - 1
      omega
    | error e =>
      by_cases hl : attempt = maxRetries
      · simp only [hl, if_true]
        show maxRetries ≤ maxRetries + (fuel + 1) - 1
        omega
      · simp only [hl, if_false]
        show (retryAux op methodName maxRetries fuel (attempt + 1)).attemptsMade ≤
          attempt + (fuel + 1) - 1
        have := retryAux_attemptsMade_le op methodName maxRetries fuel (attempt + 1)
        omega

/-! ### Claim theorems -/

/-- Claim C1 (code_bug evaluation): `determineRiskLevel` compares the
percentage against `RISK_LEVELS.HIGH = 75` and `RISK_LEVELS.MODERATE = 25` as
if they were lower bounds of 'high' and 'moderate', so it returns `low` for
every percentage below 25 (including 18, documented as moderate), `moderate`
on `[25, 75)` (including 30, documented as high), `high` only at exactly 75,
and `critical` strictly above 75 — contradicting the claimed tiers and the
code's own `RISK_LEVELS` comments (low `<10`, moderate `10-25`, high `25-75`).
This theorem evaluates the classifier at the failing inputs. -/
theorem determineRiskLevel_misclassifies :
    determineRiskLevel 9 = RiskLevel.low ∧
    determineRiskLevel 18 = RiskLevel.low ∧
    determineRiskLevel 30 = RiskLevel.moderate ∧
    determineRiskLevel 75 = RiskLevel.high ∧
    determineRiskLevel 76 = RiskLevel.critical := by
  refine ⟨?_, ?_, ?_, ?_, ?_⟩ <;> decide

/-- Clamping as the spec words it: `clamp(x, lo, hi)`. -/
def clamp (x lo hi : ℚ) : ℚ := min hi (max lo x)

/-- Claim C2: for a non-negative largest active stake, the `riskPercentage` of
a non-error, non-fork-short-circuit snapshot equals
`clamp(100 * stake / 275000, 0, 100)`; in the forced-fork case it is pinned to
exactly 100. -/
theorem riskPercentage_eq_clamp (bn : ℕ) (conn : RpcConnection)
    (marketFinalized : String → Option Bool) (scan : Except String EventStreams)
    (h : 0 ≤ getLargestDisputeBond (getActiveDisputes marketFinalized scan)) :
    (calculateRiskSnapshot bn conn (some false) marketFinalized scan).riskPercentage =
      clamp (100 * getLargestDisputeBond (getActiveDisputes marketFinalized scan) /
        FORK_THRESHOLD_REP) 0 100 ∧
    (getForkingResult bn conn).riskPercentage = 100 := by
  constructor
  · show min 100 (max 0 (getLargestDisputeBond (getActiveDisputes marketFinalized scan) /
        FORK_THRESHOLD_REP * 100)) =
      min 100 (max 0 (100 * getLargestDisputeBond (getActiveDisputes marketFinalized scan) /
        FORK_THRESHOLD_REP))
    have hAB : getLargestDisputeBond (getActiveDisputes marketFinalized scan) /
        FORK_THRESHOLD_REP * 100 =
        100 * getLargestDisputeBond (getActiveDisputes marketFinalized scan) /
        FORK_THRESHOLD_REP := by ring
    rw [hAB]
  · rfl

/-- Claim C2 witness: the empty lookback window has largest stake 0 and
riskPercentage `clamp(0, 0, 100)`. -/
theorem riskPercentage_eq_clamp_witness :
    0 ≤ getLargestDisputeBond (getActiveDisputes (fun _ => none) (Except.ok ⟨[], [], []⟩)) ∧
    (calculateRiskSnapshot 19000000 ⟨"https://eth.llamarpc.com", 50, 0⟩ (some false)
        (fun _ => none) (Except.ok ⟨[], [], []⟩)).riskPercentage =
      clamp (100 * getLargestDisputeBond (getActiveDisputes (fun _ => none)
        (Except.ok ⟨[], [], []⟩)) / FORK_THRESHOLD_REP) 0 100 :=
  ⟨le_refl 0,
    (riskPercentage_eq_clamp 19000000 ⟨"https://eth.llamarpc.com", 50, 0⟩
      (fun _ => none) (Except.ok ⟨[], [], []⟩) (le_refl 0)).1⟩

/-- Claim C3: a dispute-crowdsourcer identifier that appears in the completion
stream is never among the surviving aggregates that produce the output detail
list, regardless of any stake recorded for it; and the output detail list is
exactly the sorted, capped image of those surviving aggregates. -/
theorem completed_never_in_output (s : EventStreams)
    (marketFinalized : String → Option Bool) (k : String)
    (h : k ∈ s.completed.map (fun e => e.disputeCrowdsourcerAddress)) :
    k ∉ keys (activeStates marketFinalized (buildDisputeStates s)) ∧
    getActiveDisputes marketFinalized (.ok s) =
      (((activeStates marketFinalized (buildDisputeStates s)).map
        (fun p => toDetail p.2)).insertionSort detailGE).take 10 := by
  refine ⟨?_, rfl⟩
  intro hk
  obtain ⟨⟨k', st⟩, hp_mem, hfst⟩ := List.mem_map.mp hk
  simp only at hfst
  subst hfst
  have h1 := List.mem_filter.mp hp_mem
  have hnc : st.isCompleted = false := keepDispute_not_completed _ _ h1.2
  have hget : mapGet (buildDisputeStates s) k' = some st :=
    mapGet_eq_some_of_mem _ (nodup_keys_buildDisputeStates s) _ _ h1.1
  have hco : completedOrAbsent (buildDisputeStates s) k' :=
    foldl_applyCompleted_mem s.completed _ k' h
  rcases hco with hco | ⟨st2, hst2, hc2⟩
  · rw [hget] at hco
    cases hco
  · rw [hget] at hst2
    cases hst2
    rw [hnc] at hc2
    cases hc2

/-- Claim C3 witness: a dispute with a large contributed stake is excluded
once its completion event is in the window. -/
theorem completed_never_in_output_witness :
    "0xdca1" ∈ (EventStreams.mk []
        [⟨"0xmarketA", "0xdca1", 50000000000000000000000, 2, 1700000000⟩]
        [⟨"0xmarketA", "0xdca1"⟩]).completed.map
          (fun e => e.disputeCrowdsourcerAddress) ∧
    "0xdca1" ∉ keys (activeStates (fun _ => none) (buildDisputeStates
      (EventStreams.mk []
        [⟨"0xmarketA", "0xdca1", 50000000000000000000000, 2, 1700000000⟩]
        [⟨"0xmarketA", "0xdca1"⟩]))) :=
  ⟨by simp,
    (completed_never_in_output
      (EventStreams.mk []
        [⟨"0xmarketA", "0xdca1", 50000000000000000000000, 2, 1700000000⟩]
        [⟨"0xmarketA", "0xdca1"⟩])
      (fun _ => none) "0xdca1" (by simp)).1⟩

/-- Claim C4: the detail list produced by `getActiveDisputes` is sorted
non-increasing by stake with at most 10 entries, and the snapshot's
`disputeDetails` field is sorted non-increasing by stake with at most 5
entries. -/
theorem output_sorted_and_capped (marketFinalized : String → Option Bool)
    (scan : Except String EventStreams) (bn : ℕ) (conn : RpcConnection) :
    (getActiveDisputes marketFinalized scan).length ≤ 10 ∧
    List.Sorted detailGE (getActiveDisputes marketFinalized scan) ∧
    (calculateRiskSnapshot bn conn (some false) marketFinalized
      scan).metrics.disputeDetails.length ≤ 5 ∧
    List.Sorted detailGE (calculateRiskSnapshot bn conn (some false) marketFinalized
      scan).metrics.disputeDetails := by
  have hmain : (getActiveDisputes marketFinalized scan).length ≤ 10 ∧
      List.Sorted detailGE (getActiveDisputes marketFinalized scan) := by
    cases scan with
    | error e => simp [getActiveDisputes, List.Sorted]
    | ok s =>
      constructor
      · show ((((activeStates marketFinalized (buildDisputeStates s)).map
            (fun p => toDetail p.2)).insertionSort detailGE).take 10).length ≤ 10
        rw [List.length_take]
        exact min_le_left _ _
      · exact List.Pairwise.sublist (List.take_sublist _ _)
          (List.sorted_insertionSort detailGE _)
  refine ⟨hmain.1, hmain.2, ?_, ?_⟩
  · show ((getActiveDisputes marketFinalized scan).take 5).length ≤ 5
    rw [List.length_take]
    exact min_le_left _ _
  · exact List.Pairwise.sublist (List.take_sublist _ _) hmain.2

/-- Claim C5: when the fork-active check returns true, the snapshot is exactly
the fixed forking result — riskPercentage 100, riskLevel critical, one
synthetic detail entry — independent of the event scan outcome. -/
theorem forking_short_circuit (bn : ℕ) (conn : RpcConnection)
    (marketFinalized : String → Option Bool) (scan : Except String EventStreams) :
    calculateRiskSnapshot bn conn (some true) marketFinalized scan =
      getForkingResult bn conn ∧
    (getForkingResult bn conn).riskPercentage = 100 ∧
    (getForkingResult bn conn).riskLevel = RiskLevel.critical ∧
    (getForkingResult bn conn).metrics.disputeDetails =
      [{ marketId := "FORKING", title := "Universe is currently forking",
         disputeBondSize := FORK_THRESHOLD_REP, disputeRound := 99,
         daysRemaining := 0 }] :=
  ⟨rfl, rfl, rfl, rfl⟩

/-- Claim C6: when the fork-state check fails after all retries (`none`), the
run proceeds exactly as if the universe were not forking: the snapshot equals
the `some false` snapshot, carries the normal calculation method, and no
error. -/
theorem forkCheckFailure_degrades (bn : ℕ) (conn : RpcConnection)
    (marketFinalized : String → Option Bool) (scan : Except String EventStreams) :
    calculateRiskSnapshot bn conn none marketFinalized scan =
      calculateRiskSnapshot bn conn (some false) marketFinalized scan ∧
    (calculateRiskSnapshot bn conn none marketFinalized scan).calculation.method =
      "GitHub Actions + Public RPC" ∧
    (calculateRiskSnapshot bn conn none marketFinalized scan).error = none :=
  ⟨rfl, rfl, rfl⟩

/-- Claim C7: with maximum attempt count 3 the operation runs at most 3 times;
a success returns immediately with no delay; after a failed attempt that is
not the last, the retrier waits `2^(attempt-1) * 1000` ms (1000 then 2000);
on exhaustion it propagates the last error and logs a line naming the
operation. -/
theorem retryContractCall_spec {α : Type} (op : ℕ → Except String α)
    (methodName : String) :
    (retryContractCall op methodName 3).attemptsMade ≤ 3 ∧
    (∀ v, op 1 = .ok v →
      (retryContractCall op methodName 3).outcome = op 1 ∧
      (retryContractCall op methodName 3).delays = []) ∧
    (∀ e1 v, op 1 = .error e1 → op 2 = .ok v →
      (retryContractCall op methodName 3).outcome = op 2 ∧
      (retryContractCall op methodName 3).delays = [1000]) ∧
    (∀ e1 e2, op 1 = .error e1 → op 2 = .error e2 →
      (retryContractCall op methodName 3).outcome = op 3 ∧
      (retryContractCall op methodName 3).delays = [1000, 2000]) ∧
    (∀ e1 e2 e3, op 1 = .error e1 → op 2 = .error e2 → op 3 = .error e3 →
      (retryContractCall op methodName 3).outcome = .error e3 ∧
      (methodName ++ " failed after " ++ toString 3 ++ " attempts: " ++ e3) ∈
        (retryContractCall op methodName 3).logs) := by
  refine ⟨?_, ?_, ?_, ?_, ?_⟩
  · have := retryAux_attemptsMade_le op methodName 3 3 1
    simpa [retryContractCall] using this
  · intro v h1
    simp [retryContractCall, retryAux, h1]
  · intro e1 v h1 h2
    simp [retryContractCall, retryAux, h1, h2]
  · intro e1 e2 h1 h2
    cases h3 : op 3 with
    | ok v => simp [retryContractCall, retryAux, h1, h2, h3]
    | error e3 => simp [retryContractCall, retryAux, h1, h2, h3]
  · intro e1 e2 e3 h1 h2 h3
    simp [retryContractCall, retryAux, h1, h2, h3]

/-- Claim C7 witness: an operation failing on every attempt runs exactly 3
times, waits 1000 then 2000 ms, propagates the last error, and logs the
operation name. -/
theorem retryContractCall_spec_witness :
    (retryContractCall (fun _ => (.error "boom" : Except String ℕ))
      "universe.isForking()" 3).outcome = .error "boom" ∧
    (retryContractCall (fun _ => (.error "boom" : Except String ℕ))
      "universe.isForking()" 3).delays = [1000, 2000] ∧
    ("universe.isForking()" ++ " failed after " ++ toString 3 ++ " attempts: " ++ "boom") ∈
      (retryContractCall (fun _ => (.error "boom" : Except String ℕ))
        "universe.isForking()" 3).logs := by
  have h := retryContractCall_spec (fun _ => (.error "boom" : Except String ℕ))
    "universe.isForking()"
  exact ⟨(h.2.2.2.2 "boom" "boom" "boom" rfl rfl rfl).1,
    (h.2.2.2.1 "boom" "boom" rfl rfl).2,
    (h.2.2.2.2 "boom" "boom" "boom" rfl rfl rfl).2⟩

/-- Claim C8 counterexample: when every endpoint fails, the error snapshot's
`rpcInfo.fallbacksAttempted` is 0 — `getErrorResult` hardcodes it — not 4 as
claimed, even though the process exit code is 1. -/
theorem errorSnapshot_fallbacksAttempted_zero :
    (mainRun (fun _ => .failure "connection refused")).1.rpcInfo.fallbacksAttempted = 0 ∧
    ¬ (mainRun (fun _ => .failure "connection refused")).1.rpcInfo.fallbacksAttempted = 4 ∧
    (mainRun (fun _ => .failure "connection refused")).2 = 1 := by
  refine ⟨rfl, ?_, rfl⟩
  decide

/-- Claim C8 (amended): if all 4 configured endpoints fail, the job writes an
error snapshot with riskLevel unknown, the error field present and carrying
the last endpoint's error message, `rpcInfo.endpoint` null, and
`rpcInfo.fallbacksAttempted` 0 (hardcoded by `getErrorResult`), and exits 1. -/
theorem allEndpointsFail_errorSnapshot (f : String → String) :
    (mainRun (fun e => .failure (f e))).1.riskLevel = RiskLevel.unknown ∧
    (mainRun (fun e => .failure (f e))).1.error = some (f "https://1rpc.io/eth") ∧
    (mainRun (fun e => .failure (f e))).1.rpcInfo.endpoint = none ∧
    (mainRun (fun e => .failure (f e))).1.rpcInfo.fallbacksAttempted = 0 ∧
    (mainRun (fun e => .failure (f e))).2 = 1 ∧
    (f "https://1rpc.io/eth" ≠ "" →
      (mainRun (fun e => .failure (f e))).1.error ≠ some "") := by
  refine ⟨rfl, rfl, rfl, rfl, rfl, ?_⟩
  intro hne heq
  exact hne (Option.some.inj heq)

/-- Claim C8 witness: all four endpoints failing with "connection refused". -/
theorem allEndpointsFail_errorSnapshot_witness :
    "connection refused" ≠ "" ∧
    (mainRun (fun _ => .failure "connection refused")).1.error ≠ some "" :=
  ⟨by decide,
    (allEndpointsFail_errorSnapshot (fun _ => "connection refused")).2.2.2.2.2
      (by decide)⟩

/-- Claim C9: a contribution event overwrites an existing aggregate's stake
with the event's cumulative value, sets its round, and advances its
last-contribution timestamp to the max seen; with no existing aggregate it
creates one from the contribution event's own market and values with
`isCompleted = false`; aggregates under other keys are untouched. -/
theorem applyContribution_spec (m : DisputeStates) (e : ContributionEvent) :
    (∀ st, mapGet m e.disputeCrowdsourcerAddress = some st →
      mapGet (applyContribution m e) e.disputeCrowdsourcerAddress =
        some { st with
          currentStake := formatEther e.currentStakeWei
          disputeRound := e.disputeRound
          lastContributionTimestamp := max st.lastContributionTimestamp e.timestamp }) ∧
    (mapGet m e.disputeCrowdsourcerAddress = none →
      mapGet (applyContribution m e) e.disputeCrowdsourcerAddress =
        some { marketId := e.marketAddress
               currentStake := formatEther e.currentStakeWei
               disputeRound := e.disputeRound
               isCompleted := false
               lastContributionTimestamp := e.timestamp }) ∧
    (∀ k, k ≠ e.disputeCrowdsourcerAddress →
      mapGet (applyContribution m e) k = mapGet m k) := by
  refine ⟨?_, ?_, ?_⟩
  · intro st hst
    unfold applyContribution
    rw [hst]
    exact mapGet_mapSet_self _ _ _
  · intro hst
    unfold applyContribution
    rw [hst]
    exact mapGet_mapSet_self _ _ _
  · intro k hk
    unfold applyContribution
    cases mapGet m e.disputeCrowdsourcerAddress <;>
      exact mapGet_mapSet_ne _ _ _ _ hk

/-- Claim C9 witness: a concrete contribution event updating an existing
aggregate (stake overwritten to the cumulative value, round set, timestamp
advanced to the max). -/
theorem applyContribution_spec_witness :
    mapGet [("0xdca1", ⟨"0xmarketA", 1000, 1, false, 0⟩)] "0xdca1" =
      some ⟨"0xmarketA", 1000, 1, false, 0⟩ ∧
    mapGet (applyContribution [("0xdca1", ⟨"0xmarketA", 1000, 1, false, 0⟩)]
        ⟨"0xmarketB", "0xdca1", 50000000000000000000000, 2, 1700000000⟩) "0xdca1" =
      some ⟨"0xmarketA", formatEther 50000000000000000000000, 2, false, 1700000000⟩ := by
  have h := (applyContribution_spec [("0xdca1", ⟨"0xmarketA", 1000, 1, false, 0⟩)]
      ⟨"0xmarketB", "0xdca1", 50000000000000000000000, 2, 1700000000⟩).1
    ⟨"0xmarketA", 1000, 1, false, 0⟩ (by simp [mapGet])
  refine ⟨by simp [mapGet], ?_⟩
  simpa [Nat.zero_max] using h

/-- Claim C10: when the event scan fails as a whole, the scanner yields the
empty dispute list and the run produces a success-shaped snapshot — riskLevel
low, riskPercentage 0, zero active disputes, no error — identical to the
snapshot for a genuinely empty lookback window. -/
theorem scanFailure_quiet_snapshot (bn : ℕ) (conn : RpcConnection)
    (marketFinalized : String → Option Bool) (msg : String) :
    getActiveDisputes marketFinalized (.error msg) = [] ∧
    calculateRiskSnapshot bn conn (some false) marketFinalized (.error msg) =
      calculateRiskSnapshot bn conn (some false) marketFinalized (.ok ⟨[], [], []⟩) ∧
    (calculateRiskSnapshot bn conn (some false) marketFinalized
      (.error msg)).riskLevel = RiskLevel.low ∧
    (calculateRiskSnapshot bn conn (some false) marketFinalized
      (.error msg)).riskPercentage = 0 ∧
    (calculateRiskSnapshot bn conn (some false) marketFinalized
      (.error msg)).metrics.activeDisputes = 0 ∧
    (calculateRiskSnapshot bn conn (some false) marketFinalized
      (.error msg)).error = none := by
  refine ⟨rfl, rfl, ?_, ?_, rfl, rfl⟩
  · show determineRiskLevel ((0 : ℚ) / FORK_THRESHOLD_REP * 100) = RiskLevel.low
    norm_num [determineRiskLevel, RISK_LEVELS, FORK_THRESHOLD_REP]
  · show min (100 : ℚ) (max 0 ((0 : ℚ) / FORK_THRESHOLD_REP * 100)) = 0
    norm_num [FORK_THRESHOLD_REP]

end ForkRisk
